import Mathlib

/-!
Verification of `skrf/networkSet.py` (the `NetworkSet` class and its free
helper functions) against its natural-language specification.

The module under verification is a convenience layer over an external
`Network` collaborator (`network.py`, not part of the reviewed sources) and
over numpy array reductions.  We embed:

* numpy `f × n × n` arrays as index functions `ℕ → ℕ → ℕ → α`;
* the `Network` collaborator as a record of the fields this module reads
  (port count, frequency descriptor, name, s-matrix) — modelled from the
  spec's collaborator contract since `network.py` is not in the sources;
* Python dynamic values as `PyVal` (a network or something else), so that
  `isinstance` checks and attribute errors can be stated faithfully;
* each fallible operation as an `Except Err _` function.
-/

namespace Skrf

/-- A numpy `f × n × n` array, embedded as an index function. -/
abbrev Arr (α : Type) : Type := ℕ → ℕ → ℕ → α

/-- Modelled from the spec: the `Network` collaborator (`network.py` is not
among the reviewed sources).  Only the surface this module consumes is
modelled: port count, a frequency descriptor with decidable equality, an
optional name, and the primary data field `s`. -/
structure Network (α : Type) where
  number_of_ports : ℕ
  frequency : ℕ
  name : Option String
  s : Arr α

/-- The `NetworkSet` object: the stored member list and optional name
(`self.ntwk_set` and `self.name`). -/
structure NetworkSet (α : Type) where
  ntwk_set : List (Network α)
  name : Option String

/-- The Python exceptions raised by this module. -/
inductive Err where
  | indexError
  | typeError
  | attributeError
  | portValueError
  | freqValueError
  | lengthValueError
deriving DecidableEq

/-- The spec's "configuration error" class: the `ValueError`s raised for
port-count mismatch, frequency mismatch and operator length mismatch. -/
def Err.isConfig : Err → Bool
  | .portValueError => true
  | .freqValueError => true
  | .lengthValueError => true
  | _ => false

/-- A dynamically typed Python value: a `Network` instance or anything else. -/
inductive PyVal (α : Type) where
  | net (n : Network α)
  | other

/-- The `isinstance(v, Network)` check. -/
def PyVal.isNet : PyVal α → Bool
  | .net _ => true
  | .other => false

/-- Reading `number_of_ports` (or `frequency`) off every element of a list of
dynamic values: succeeds with the underlying networks exactly when every
element is a `Network`; otherwise the comprehension raises `AttributeError`,
modelled as `none`. -/
def asNets : List (PyVal α) → Option (List (Network α))
  | [] => some []
  | .net n :: rest => (asNets rest).map (fun l => n :: l)
  | .other :: _ => none

/-- The validation part of `NetworkSet.__init__` once all members are known
to be networks: `len(set(number_of_ports)) > 1` raises `ValueError`, then a
failed `all(frequency == first.frequency)` raises `ValueError`, else the
list and name are stored unchanged. -/
def checkedInit (n0 : Network α) (rest : List (Network α)) (name : Option String) :
    Except Err (NetworkSet α) :=
  if 1 < ((n0 :: rest).map Network.number_of_ports).dedup.length then
    .error .portValueError
  else if ¬ ((n0 :: rest).all fun n => n0.frequency == n.frequency) then
    .error .freqValueError
  else
    .ok ⟨n0 :: rest, name⟩

/-- `NetworkSet.__init__` on a dynamically typed input list: `ntwk_set[0]`
raises `IndexError` on an empty list; `isinstance(ntwk_set[0], Network)` is
checked on the first element only; the port comprehension then raises
`AttributeError` if any later element is not a network; finally the
port-count and frequency checks run. -/
def pyInit (l : List (PyVal α)) (name : Option String) : Except Err (NetworkSet α) :=
  match l with
  | [] => .error .indexError
  | .other :: _ => .error .typeError
  | .net n0 :: rest =>
    match asNets rest with
    | none => .error .attributeError
    | some ns => checkedInit n0 ns name

/-- `NetworkSet(l, name)` applied to a genuine list of networks. -/
def mkNetworkSet (l : List (Network α)) (name : Option String) :
    Except Err (NetworkSet α) :=
  pyInit (l.map PyVal.net) name

/-- The operand of a dynamically generated binary operator: a `NetworkSet`,
a `Network`, or anything else. -/
inductive Operand (α : Type) where
  | set (s : NetworkSet α)
  | net (n : Network α)
  | other

/-- `operator_func` from `NetworkSet.__add_a_operator`: a `NetworkSet`
operand of equal length pairs index with index (else `ValueError`); a
`Network` operand is applied against every member; anything else raises
`TypeError`.  The resulting lists are passed to the `NetworkSet`
constructor.  `op` is the member-level operator (`__pow__`, `__mul__`, ...)
of the external `Network` class. -/
def operator_func (op : Network α → Network α → Network α) (self : NetworkSet α) :
    Operand α → Except Err (NetworkSet α)
  | .set o =>
    if o.ntwk_set.length ≠ self.ntwk_set.length then
      .error .lengthValueError
    else
      mkNetworkSet (List.zipWith op self.ntwk_set o.ntwk_set) none
  | .net w => mkNetworkSet (self.ntwk_set.map fun n => op n w) none
  | .other => .error .typeError

/-- The result of `NetworkSet.element_wise_method`: either a new set or the
plain list of per-member results. -/
inductive EWResult (α : Type) where
  | set (s : NetworkSet α)
  | list (l : List (PyVal α))

/-- `NetworkSet.element_wise_method`: call the member method on every
member; if `output[0]` is a `Network`, `NetworkSet(output)` is returned,
else the plain list.  `f` is the member method (arguments already
applied). -/
def element_wise_method (f : Network α → PyVal α) (self : NetworkSet α) :
    Except Err (EWResult α) :=
  let output := self.ntwk_set.map f
  match output with
  | [] => .error .indexError
  | v :: _ =>
    if v.isNet then (pyInit output none).map EWResult.set
    else .ok (.list output)

/-- Modelled from the spec: `NetworkSet.from_zip` extracts every entry of
the archive and deserializes it (archive reading and Touchstone parsing are
external); the archive is embedded as the list of deserialized networks in
archive-listing order.  The extra `*args, **kwargs` — documented as passed
to the `NetworkSet` constructor — are embedded as the `name` argument a
caller may supply; the code calls `cls([...])` without forwarding them. -/
def from_zip (entries : List (Network α)) (name_arg : Option String) :
    Except Err (NetworkSet α) :=
  mkNetworkSet entries none

/-- numpy `func(stacked, axis=0)` semantics for an elementwise reduction
`g`: reduce the member axis pointwise. -/
def axis0 (g : List α → α) (ms : List (Arr α)) : Arr α :=
  fun f i j => g (ms.map fun m => m f i j)

/-- `func_on_networks` (`fon`): stack the chosen attribute of every member,
apply the reduction along axis 0, store the result in the `s` field of a
copy of the first member, and rename when a name is given.  `attrV` is the
attribute view read via `getattr`; `g` the scalar reducer of the numpy
function.  `ntwk_list[0]` raises `IndexError` on an empty list, modelled as
`none`. -/
def func_on_networks (ntwk_list : List (Network α)) (g : List α → α)
    (attrV : Network α → Arr α) (name : Option String) : Option (Network α) :=
  match ntwk_list with
  | [] => none
  | n0 :: _ =>
    some { n0 with
           s := axis0 g (ntwk_list.map attrV)
           name := Option.or name n0.name }

/-- The enumerated attribute list of `NetworkSet.__init__`. -/
inductive Attr where
  | s | s_re | s_im | s_mag | s_deg | s_deg_unwrap | s_rad | s_rad_unwrap
  | s_arcl | s_arcl_unwrap | passivity
deriving DecidableEq

/-- Modelled from the spec: the derived scalar views of the external
`Network` class, a black box to this module.  The view for attribute `s` is
the primary data field itself; the ten derived views are arbitrary
functions of the member. -/
structure AttrViews (α : Type) where
  s_re : Network α → Arr α
  s_im : Network α → Arr α
  s_mag : Network α → Arr α
  s_deg : Network α → Arr α
  s_deg_unwrap : Network α → Arr α
  s_rad : Network α → Arr α
  s_rad_unwrap : Network α → Arr α
  s_arcl : Network α → Arr α
  s_arcl_unwrap : Network α → Arr α
  passivity : Network α → Arr α

/-- `getattr(ntwk, attribute)` for the enumerated attributes. -/
def AttrViews.get (v : AttrViews α) : Attr → Network α → Arr α
  | .s => Network.s
  | .s_re => v.s_re
  | .s_im => v.s_im
  | .s_mag => v.s_mag
  | .s_deg => v.s_deg
  | .s_deg_unwrap => v.s_deg_unwrap
  | .s_rad => v.s_rad
  | .s_rad_unwrap => v.s_rad_unwrap
  | .s_arcl => v.s_arcl
  | .s_arcl_unwrap => v.s_arcl_unwrap
  | .passivity => v.passivity

/-- The two reduction functions of the generated properties. -/
inductive RFunc where
  | mean | std
deriving DecidableEq

/-- `numpy.mean` along an axis, pointwise scalar form. -/
noncomputable def npyMean (l : List ℝ) : ℝ := l.sum / l.length

/-- `numpy.std` along an axis (population standard deviation), pointwise
scalar form. -/
noncomputable def npyStd (l : List ℝ) : ℝ :=
  Real.sqrt (npyMean (l.map fun x => (x - npyMean l) ^ 2))

/-- The scalar reducer of each numpy reduction function. -/
noncomputable def RFunc.apply : RFunc → (List ℝ → ℝ)
  | .mean => npyMean
  | .std => npyStd

/-- The generated reduction property `<func>_<attribute>` installed by
`NetworkSet.__add_a_func_on_property`: its getter is
`fon(self.ntwk_set, func, attribute, name=self.name)`. -/
noncomputable def genProp (v : AttrViews ℝ) (f : RFunc) (a : Attr)
    (ns : NetworkSet ℝ) : Option (Network ℝ) :=
  func_on_networks ns.ntwk_set f.apply (v.get a) ns.name

/-- Modelled from the spec: decibel conversion of a magnitude,
`magnitude_2_db(x) = 20 * log10(x)` (the conversion lives in the external
`mathFunctions` module). -/
noncomputable def mag2db (x : ℝ) : ℝ := 20 * Real.logb 10 x

/-- Modelled from the spec: the `s_mag` view of the external `Network`
class — the elementwise magnitude of the s-matrix. -/
noncomputable def s_mag_view (n : Network ℝ) : Arr ℝ :=
  fun f i j => |n.s f i j|

/-- Modelled from the spec: the `s_db` view of the external `Network`
class — the elementwise decibel conversion of the magnitude. -/
noncomputable def s_db_view (n : Network ℝ) : Arr ℝ :=
  fun f i j => mag2db |n.s f i j|

/-- The generated `mean_s_mag` property: `fon(self.ntwk_set, npy.mean,
's_mag', name=self.name)`. -/
noncomputable def NetworkSet.mean_s_mag (ns : NetworkSet ℝ) : Option (Network ℝ) :=
  func_on_networks ns.ntwk_set npyMean s_mag_view ns.name

/-- The explicit `mean_s_db` property: `ntwk = self.mean_s_mag;
ntwk.s = ntwk.s_db; return ntwk`. -/
noncomputable def NetworkSet.mean_s_db (ns : NetworkSet ℝ) : Option (Network ℝ) :=
  ns.mean_s_mag.map fun ntwk => { ntwk with s := s_db_view ntwk }

/-- Modelled from the spec: `Network.__add__` of the external collaborator —
elementwise addition on the s-matrices, metadata from the left operand. -/
def netAdd [Add α] (a b : Network α) : Network α :=
  { a with s := fun f i j => a.s f i j + b.s f i j }

/-- Modelled from the spec: `Network.__sub__` of the external collaborator —
elementwise subtraction on the s-matrices, metadata from the left operand. -/
def netSub [Sub α] (a b : Network α) : Network α :=
  { a with s := fun f i j => a.s f i j - b.s f i j }

/-- `NetworkSet.uncertainty_ntwk_triplet`: read the generated `mean_<attr>`
and `std_<attr>` properties, scale the std network's s-matrix by
`n_deviations`, and return `(mean, mean - scaled, mean + scaled)`. -/
noncomputable def uncertainty_ntwk_triplet (v : AttrViews ℝ) (ns : NetworkSet ℝ)
    (a : Attr) (n_deviations : ℝ) : Option (Network ℝ × Network ℝ × Network ℝ) :=
  match genProp v .mean a ns, genProp v .std a ns with
  | some ntwk_mean, some ntwk_std =>
    let scaled : Network ℝ :=
      { ntwk_std with s := fun f i j => n_deviations * ntwk_std.s f i j }
    some (ntwk_mean, netSub ntwk_mean scaled, netAdd ntwk_mean scaled)
  | _, _ => none

/-- `uncertainty_ntwk_triplet` called without the `n_deviations` argument:
the Python default is `n_deviations=3`. -/
noncomputable def uncertainty_ntwk_triplet_default (v : AttrViews ℝ)
    (ns : NetworkSet ℝ) (a : Attr) : Option (Network ℝ × Network ℝ × Network ℝ) :=
  uncertainty_ntwk_triplet v ns a 3

/-- The attribute-name strings of the property loop in
`NetworkSet.__init__`. -/
def property_names : List String :=
  ["s", "s_re", "s_im", "s_mag", "s_deg", "s_deg_unwrap", "s_rad",
   "s_rad_unwrap", "s_arcl", "s_arcl_unwrap", "passivity"]

/-- The method-name strings of the method loop in `NetworkSet.__init__`. -/
def method_names : List String :=
  ["write_touchstone", "interpolate", "plot_s_smith"]

/-- The operator-name strings of the operator loop in
`NetworkSet.__init__`. -/
def operator_names : List String :=
  ["__pow__", "__floordiv__", "__mul__", "__div__", "__add__", "__sub__"]

/-- The exact sequence of class-attribute names written (via
`setattr(self.__class__, ...)`) during one run of `NetworkSet.__init__`:
for each attribute, `mean_`/`std_` properties, a `plot_uncertainty_bounds_`
method, the `plot_<attr>` elementwise method and `plot_s_db` (re-registered
inside the attribute loop); then the three method names; then the six
operator names. -/
def init_setattr_names : List String :=
  (property_names.flatMap fun p =>
    ["mean_" ++ p, "std_" ++ p, "plot_uncertainty_bounds_" ++ p,
     "plot_" ++ p, "plot_s_db"]) ++ method_names ++ operator_names

/-- One `setattr` on the class-level registry, tracked as the set of
registered names: a new name is appended, an existing one overwritten. -/
def setattrWrite (reg : List String) (n : String) : List String :=
  if n ∈ reg then reg else reg ++ [n]

/-- The registered-name set after one `NetworkSet.__init__` run starting
from registry contents `reg`. -/
def registryAfterInit (reg : List String) : List String :=
  init_setattr_names.foldl setattrWrite reg

/-- Two members of a concrete real-valued ensemble with unit magnitude... -/
noncomputable def netUnit : Network ℝ :=
  { number_of_ports := 1, frequency := 0, name := none, s := fun _ _ _ => 1 }

/-- ... and with magnitude 100. -/
noncomputable def netHundred : Network ℝ :=
  { number_of_ports := 1, frequency := 0, name := none, s := fun _ _ _ => 100 }

/-- The two-member ensemble with magnitudes 1 and 100 used to separate the
two decibel-averaging orders. -/
noncomputable def dbExampleSet : NetworkSet ℝ :=
  { ntwk_set := [netUnit, netHundred], name := none }

/-- A concrete instantiation of the abstract attribute views, used to
evaluate the view-generic theorems at a concrete input. -/
noncomputable def trivViews : AttrViews ℝ :=
  { s_re := Network.s, s_im := Network.s, s_mag := s_mag_view
    s_deg := Network.s, s_deg_unwrap := Network.s, s_rad := Network.s
    s_rad_unwrap := Network.s, s_arcl := Network.s, s_arcl_unwrap := Network.s
    passivity := Network.s }

/-- The claim's description of a generated reduction property, written from
the spec's words rather than from `func_on_networks`: stack the chosen
attribute from every member along a new leading axis (member index first),
apply the reduction function along that axis, write the reduced array into
the primary data field `s` of a copy of the first member, and give the
result the set's name when one is set. -/
noncomputable def specReduction (v : AttrViews ℝ) (f : RFunc) (a : Attr)
    (ns : NetworkSet ℝ) : Option (Network ℝ) :=
  match ns.ntwk_set with
  | [] => none
  | n0 :: _ =>
    some { n0 with
           s := fun fi i j =>
             f.apply ((List.range ns.ntwk_set.length).map fun k =>
               (ns.ntwk_set.map (v.get a)).getD k (fun _ _ _ => 0) fi i j)
           name := if ns.name.isSome then ns.name else n0.name }

/-- Structural homogeneity of a set's members: equal port counts and equal
frequency descriptors (what a validated construction guarantees). -/
def NetworkSet.uniform (ns : NetworkSet α) : Prop :=
  ∀ a ∈ ns.ntwk_set, ∀ b ∈ ns.ntwk_set,
    a.number_of_ports = b.number_of_ports ∧ a.frequency = b.frequency

/-- A one-port rational-valued example network carrying a name. -/
def exNetA : Network ℚ :=
  { number_of_ports := 1, frequency := 0, name := some "a", s := fun _ _ _ => 0 }

/-- A one-port rational-valued example network without a name, structurally
compatible with `exNetA`. -/
def exNetB : Network ℚ :=
  { number_of_ports := 1, frequency := 0, name := none, s := fun _ _ _ => 0 }

/-- A two-port example network, port-incompatible with `exNetA`. -/
def exNetC : Network ℚ :=
  { number_of_ports := 2, frequency := 0, name := none, s := fun _ _ _ => 0 }

/-- An example network whose frequency descriptor differs from `exNetA`. -/
def exNetD : Network ℚ :=
  { number_of_ports := 1, frequency := 5, name := none, s := fun _ _ _ => 0 }

/-- A valid two-member example set. -/
def exSetQ : NetworkSet ℚ := { ntwk_set := [exNetA, exNetB], name := none }

/-- A second valid two-member example set, member-compatible with
`exSetQ`. -/
def exSetQ2 : NetworkSet ℚ := { ntwk_set := [exNetB, exNetA], name := none }

/-- An example member method whose per-member results are mixed: a network
for a named member, a non-network (e.g. `None`) for an unnamed one. -/
def exF : Network ℚ → PyVal ℚ :=
  fun n => match n.name with
           | some _ => PyVal.net n
           | none => PyVal.other

/-- An example member method returning a non-network (e.g. `None`, as
`write_touchstone` does) for every member. -/
def exF0 : Network ℚ → PyVal ℚ := fun _ => PyVal.other

/-- An example member-level binary operator: keep the left operand (it
preserves the left operand's port count and frequency, as the external
`Network` operators do). -/
def exOp : Network ℚ → Network ℚ → Network ℚ := fun a _ => a

/-! ### Helper lemmas -/

theorem asNets_map_net (l : List (Network α)) : asNets (l.map PyVal.net) = some l := by
  induction l with
  | nil => rfl
  | cons n rest ih => simp [asNets, ih]

theorem mkNetworkSet_cons (n0 : Network α) (rest : List (Network α))
    (name : Option String) :
    mkNetworkSet (n0 :: rest) name = checkedInit n0 rest name := by
  simp [mkNetworkSet, pyInit, asNets_map_net]

theorem dedup_length_le_one_of_all_eq {xs : List ℕ} {c : ℕ}
    (h : ∀ a ∈ xs, a = c) : xs.dedup.length ≤ 1 := by
  induction xs with
  | nil => simp
  | cons x t ih =>
    by_cases hx : x ∈ t
    · rw [List.dedup_cons_of_mem hx]
      exact ih fun a ha => h a (List.mem_cons_of_mem _ ha)
    · have ht : t = [] := by
        cases t with
        | nil => rfl
        | cons y u =>
          exfalso
          apply hx
          have hy : y = c := h y (by simp)
          have hxc : x = c := h x (by simp)
          rw [hxc, ← hy]
          exact List.mem_cons_self y u
      subst ht
      simp


theorem all_eq_of_dedup_length_le_one {xs : List ℕ}
    (h : xs.dedup.length ≤ 1) : ∀ a ∈ xs, ∀ b ∈ xs, a = b := by
  intro a ha b hb
  have ha' : a ∈ xs.dedup := List.mem_dedup.mpr ha
  have hb' : b ∈ xs.dedup := List.mem_dedup.mpr hb
  cases hd : xs.dedup with
  | nil => rw [hd] at ha'; cases ha'
  | cons x t =>
    have ht : t = [] := by
      rw [hd, List.length_cons] at h
      exact List.length_eq_zero.mp (by omega)
    rw [hd, ht] at ha' hb'
    have h1 : a = x := by simpa using ha'
    have h2 : b = x := by simpa using hb'
    omega

theorem checkedInit_ok {α : Type} {n0 : Network α} {rest : List (Network α)}
    {name : Option String}
    (hports : ∀ n ∈ n0 :: rest, n.number_of_ports = n0.number_of_ports)
    (hfreq : ∀ n ∈ n0 :: rest, n.frequency = n0.frequency) :
    checkedInit n0 rest name = .ok ⟨n0 :: rest, name⟩ := by
  have h1 : ((n0 :: rest).map Network.number_of_ports).dedup.length ≤ 1 := by
    refine @dedup_length_le_one_of_all_eq _ n0.number_of_ports ?_
    intro a ha
    obtain ⟨n, hn, rfl⟩ := List.mem_map.mp ha
    exact hports n hn
  have h2 : (n0 :: rest).all (fun n => n0.frequency == n.frequency) = true := by
    rw [List.all_eq_true]
    intro n hn
    simpa [beq_iff_eq] using (hfreq n hn).symm
  unfold checkedInit
  rw [if_neg (by omega), if_neg (by simp [h2])]

theorem checkedInit_err_ports {α : Type} {n0 : Network α}
    {rest : List (Network α)} {name : Option String}
    (h : ∃ a ∈ n0 :: rest, ∃ b ∈ n0 :: rest,
      a.number_of_ports ≠ b.number_of_ports) :
    checkedInit n0 rest name = .error .portValueError := by
  obtain ⟨a, ha, b, hb, hab⟩ := h
  have hgt : 1 < ((n0 :: rest).map Network.number_of_ports).dedup.length := by
    by_contra hle
    exact hab (all_eq_of_dedup_length_le_one (by omega)
      _ (List.mem_map_of_mem _ ha) _ (List.mem_map_of_mem _ hb))
  unfold checkedInit
  rw [if_pos hgt]

theorem checkedInit_err_config_of_freq {α : Type} {n0 : Network α}
    {rest : List (Network α)} {name : Option String}
    (h : ∃ n ∈ n0 :: rest, n.frequency ≠ n0.frequency) :
    ∃ e, checkedInit n0 rest name = .error e ∧ e.isConfig = true := by
  obtain ⟨n, hn, hne⟩ := h
  by_cases hp : 1 < ((n0 :: rest).map Network.number_of_ports).dedup.length
  · exact ⟨.portValueError, by unfold checkedInit; rw [if_pos hp], rfl⟩
  · refine ⟨.freqValueError, ?_, rfl⟩
    have hall : ((n0 :: rest).all fun m => n0.frequency == m.frequency) = false := by
      rw [List.all_eq_false]
      refine ⟨n, hn, ?_⟩
      simp only [beq_iff_eq]
      exact fun hc => hne hc.symm
    unfold checkedInit
    rw [if_neg hp, if_pos (by simp [hall])]

theorem mem_zipWith {β γ δ : Type} {f : β → γ → δ} {as : List β} {bs : List γ}
    {x : δ} (hx : x ∈ List.zipWith f as bs) : ∃ a ∈ as, ∃ b ∈ bs, x = f a b := by
  induction as generalizing bs with
  | nil => cases hx
  | cons a as ih =>
    cases bs with
    | nil => cases hx
    | cons b bs =>
      rcases List.mem_cons.mp hx with h | h
      · exact ⟨a, by simp, b, by simp, h⟩
      · obtain ⟨a', ha', b', hb', hx'⟩ := ih h
        exact ⟨a', List.mem_cons_of_mem _ ha', b', List.mem_cons_of_mem _ hb', hx'⟩

theorem getD_range_map {β : Type} (l : List β) (d : β) :
    (List.range l.length).map (fun k => l.getD k d) = l := by
  induction l with
  | nil => rfl
  | cons x t ih =>
    rw [List.length_cons, List.range_succ_eq_map, List.map_cons, List.map_map]
    simp only [Function.comp_def, List.getD_cons_zero, List.getD_cons_succ]
    rw [ih]

theorem npyMean_nonneg {l : List ℝ} (h : ∀ x ∈ l, 0 ≤ x) : 0 ≤ npyMean l := by
  unfold npyMean
  have hs := List.sum_nonneg h
  positivity

theorem subset_foldl_setattrWrite (names : List String) (reg : List String) :
    ∀ n ∈ reg, n ∈ names.foldl setattrWrite reg := by
  induction names generalizing reg with
  | nil => intro n hn; simpa using hn
  | cons m t ih =>
    intro n hn
    rw [List.foldl_cons]
    apply ih
    unfold setattrWrite
    split
    · exact hn
    · exact List.mem_append_left _ hn

theorem mem_foldl_setattrWrite (names : List String) (reg : List String) :
    ∀ n ∈ names, n ∈ names.foldl setattrWrite reg := by
  induction names generalizing reg with
  | nil => intro n hn; cases hn
  | cons m t ih =>
    intro n hn
    rw [List.foldl_cons]
    rcases List.mem_cons.mp hn with rfl | hn
    · apply subset_foldl_setattrWrite
      unfold setattrWrite
      split
      · assumption
      · simp
    · exact ih _ n hn

theorem foldl_setattrWrite_of_mem {names reg : List String}
    (h : ∀ n ∈ names, n ∈ reg) : names.foldl setattrWrite reg = reg := by
  induction names with
  | nil => rfl
  | cons m t ih =>
    rw [List.foldl_cons, setattrWrite, if_pos (h m (by simp))]
    exact ih fun n hn => h n (List.mem_cons_of_mem _ hn)

theorem mkNetworkSet_ok_inv {α : Type} {l : List (Network α)}
    {name : Option String} {r : NetworkSet α}
    (h : mkNetworkSet l name = .ok r) : r = ⟨l, name⟩ := by
  cases l with
  | nil => simp [mkNetworkSet, pyInit] at h
  | cons n0 rest =>
    rw [mkNetworkSet_cons] at h
    unfold checkedInit at h
    split at h
    · cases h
    · split at h
      · cases h
      · injection h with h2
        exact h2.symm

theorem checkedInit_ne_typeError {α : Type} (n0 : Network α)
    (rest : List (Network α)) (name : Option String) :
    checkedInit n0 rest name ≠ .error .typeError := by
  unfold checkedInit
  split
  · simp
  · split
    · simp
    · simp

theorem func_on_networks_cons {α : Type} (g : List α → α)
    (attrV : Network α → Arr α) (name : Option String) (n0 : Network α)
    (rest : List (Network α)) :
    func_on_networks (n0 :: rest) g attrV name =
      some { n0 with
             s := axis0 g ((n0 :: rest).map attrV)
             name := Option.or name n0.name } := rfl

/-! ### Claim theorems -/

/-- Claim C5: construction from a non-empty collection fails with a
configuration error whenever two members have differing port counts, and
whenever some member's frequency axis differs from the first member's;
when all members agree on port count and frequency axis, construction
succeeds and stores the collection and optional name unchanged. -/
theorem claim_C5 {α : Type} (n0 : Network α) (rest : List (Network α))
    (name : Option String) :
    ((∃ a ∈ n0 :: rest, ∃ b ∈ n0 :: rest,
        a.number_of_ports ≠ b.number_of_ports) →
      ∃ e, mkNetworkSet (n0 :: rest) name = .error e ∧ e.isConfig = true)
    ∧ ((∃ n ∈ n0 :: rest, n.frequency ≠ n0.frequency) →
      ∃ e, mkNetworkSet (n0 :: rest) name = .error e ∧ e.isConfig = true)
    ∧ ((∀ n ∈ n0 :: rest, n.number_of_ports = n0.number_of_ports) →
       (∀ n ∈ n0 :: rest, n.frequency = n0.frequency) →
      mkNetworkSet (n0 :: rest) name = .ok ⟨n0 :: rest, name⟩) := by
  refine ⟨fun h => ?_, fun h => ?_, fun hp hf => ?_⟩
  · rw [mkNetworkSet_cons]
    exact ⟨.portValueError, checkedInit_err_ports h, rfl⟩
  · rw [mkNetworkSet_cons]
    exact checkedInit_err_config_of_freq h
  · rw [mkNetworkSet_cons]
    exact checkedInit_ok hp hf

/-- Witness for C5 at concrete inputs: a compatible pair constructs
successfully with collection and name stored unchanged, and a
port-mismatched pair fails with a configuration error. -/
theorem claim_C5_witness :
    mkNetworkSet [exNetA, exNetB] (some "good") =
      .ok ⟨[exNetA, exNetB], some "good"⟩
    ∧ ∃ e, mkNetworkSet [exNetA, exNetC] none = .error e ∧ e.isConfig = true :=
  ⟨(claim_C5 exNetA [exNetB] (some "good")).2.2 (by decide) (by decide),
   (claim_C5 exNetA [exNetC] none).1 ⟨exNetA, by simp, exNetC, by simp, by decide⟩⟩

/-- Claim C9: the constructor's element-type check inspects only the first
element: construction raises the type error exactly when the first element
is not a network object, so a later non-network element never triggers the
type check. -/
theorem claim_C9 {α : Type} (name : Option String) :
    (∀ (v : PyVal α) (rest : List (PyVal α)),
      pyInit (v :: rest) name = .error .typeError ↔ v.isNet = false)
    ∧ (∀ (n : Network α) (rest : List (PyVal α)),
      pyInit (PyVal.net n :: rest) name ≠ .error .typeError) := by
  have hnet : ∀ (n : Network α) (rest : List (PyVal α)),
      pyInit (PyVal.net n :: rest) name ≠ .error .typeError := by
    intro n rest h
    have hred : pyInit (PyVal.net n :: rest) name =
        (match asNets rest with
         | none => Except.error Err.attributeError
         | some ns => checkedInit n ns name) := rfl
    rw [hred] at h
    cases hAs : asNets rest with
    | none => rw [hAs] at h; simp at h
    | some ns => rw [hAs] at h; exact checkedInit_ne_typeError _ _ _ h
  refine ⟨fun v rest => ?_, hnet⟩
  cases v with
  | net n =>
    exact iff_of_false (hnet n rest) (by simp [PyVal.isNet])
  | other =>
    exact iff_of_true rfl rfl

/-- Claim C10: `from_zip` never forwards its extra arguments to the
`NetworkSet` constructor: for every archive and every supplied name
argument the set is constructed with the default name `None`. -/
theorem claim_C10 {α : Type} (entries : List (Network α))
    (name_arg : Option String) :
    from_zip entries name_arg = mkNetworkSet entries none
    ∧ ∀ r, from_zip entries name_arg = .ok r → r.name = none := by
  refine ⟨rfl, fun r h => ?_⟩
  rw [mkNetworkSet_ok_inv h]

/-- Witness for C10: a concrete archive loaded with an explicit name
argument still yields a set named `None`. -/
theorem claim_C10_witness :
    ∃ r : NetworkSet ℚ, from_zip [exNetA, exNetB] (some "zipname") = .ok r ∧
      r.name = none :=
  ⟨⟨[exNetA, exNetB], none⟩, rfl,
   (claim_C10 [exNetA, exNetB] (some "zipname")).2 ⟨[exNetA, exNetB], none⟩ rfl⟩

/-- Counterexample to claim C8: `NetworkSet.__init__` performs a fixed
sequence of 64 `setattr` writes to the class-level registry on every
instance construction, so the registry is not written exclusively at
class-definition time and instance construction is not write-free. -/
theorem claim_C8_counterexample :
    init_setattr_names.length = 64 ∧ init_setattr_names ≠ [] := by
  have h64 : init_setattr_names.length = 64 := rfl
  refine ⟨h64, fun h => ?_⟩
  rw [h] at h64
  simp at h64

/-- Claim C8 as amended: the class-level registry is populated during
instance construction — each `__init__` run performs the same non-empty
sequence of `setattr` writes — and these writes are idempotent on the set
of registered names, so any construction after the first leaves the
registry contents unchanged. -/
theorem claim_C8_amended (reg : List String) :
    registryAfterInit (registryAfterInit reg) = registryAfterInit reg
    ∧ (∀ n ∈ init_setattr_names, n ∈ registryAfterInit reg)
    ∧ init_setattr_names ≠ [] := by
  refine ⟨?_, mem_foldl_setattrWrite _ _, fun h => ?_⟩
  · exact foldl_setattrWrite_of_mem fun n hn => mem_foldl_setattrWrite _ _ n hn
  · have h64 : init_setattr_names.length = 64 := rfl
    rw [h] at h64
    simp at h64

theorem operator_func_set {α : Type} (op : Network α → Network α → Network α)
    (A B : NetworkSet α) :
    operator_func op A (.set B) =
      if B.ntwk_set.length ≠ A.ntwk_set.length then .error .lengthValueError
      else mkNetworkSet (List.zipWith op A.ntwk_set B.ntwk_set) none := rfl

theorem operator_func_net {α : Type} (op : Network α → Network α → Network α)
    (A : NetworkSet α) (w : Network α) :
    operator_func op A (.net w) =
      mkNetworkSet (A.ntwk_set.map fun n => op n w) none := rfl

theorem mkNetworkSet_ok_of_compat {α : Type} {m0 : Network α}
    {ms : List (Network α)} {name : Option String}
    (hports : ∀ m ∈ m0 :: ms, m.number_of_ports = m0.number_of_ports)
    (hfreq : ∀ m ∈ m0 :: ms, m.frequency = m0.frequency) :
    mkNetworkSet (m0 :: ms) name = .ok ⟨m0 :: ms, name⟩ := by
  rw [mkNetworkSet_cons]
  exact checkedInit_ok hports hfreq

theorem exSetQ_uniform : exSetQ.uniform := by
  intro a ha b hb
  simp only [exSetQ] at ha hb
  fin_cases ha <;> fin_cases hb <;> exact ⟨rfl, rfl⟩

/-- Claim C3: each generated binary operator applied to two NetworkSets of
equal length pairs index with index — whenever it returns a set, the k-th
element is `member_k OP other_member_k`, and under the collaborator's
structure-preservation contract it does return a set — while a length
mismatch fails with the configuration error. -/
theorem claim_C3 {α : Type} (op : Network α → Network α → Network α)
    (A B : NetworkSet α) :
    (A.ntwk_set.length ≠ B.ntwk_set.length →
      operator_func op A (.set B) = .error .lengthValueError ∧
      Err.lengthValueError.isConfig = true)
    ∧ (∀ r, operator_func op A (.set B) = .ok r →
        r.name = none ∧ r.ntwk_set = List.zipWith op A.ntwk_set B.ntwk_set ∧
        ∀ k (hk : k < A.ntwk_set.length) (hk2 : k < B.ntwk_set.length),
          r.ntwk_set[k]? = some (op A.ntwk_set[k] B.ntwk_set[k]))
    ∧ ((∀ a b, (op a b).number_of_ports = a.number_of_ports ∧
               (op a b).frequency = a.frequency) →
       A.uniform → A.ntwk_set ≠ [] → A.ntwk_set.length = B.ntwk_set.length →
       ∃ r, operator_func op A (.set B) = .ok r) := by
  refine ⟨fun h => ?_, fun r hr => ?_, fun hop hu hne hlen => ?_⟩
  · rw [operator_func_set, if_pos (Ne.symm h)]
    exact ⟨rfl, rfl⟩
  · rw [operator_func_set] at hr
    by_cases hlen : B.ntwk_set.length ≠ A.ntwk_set.length
    · rw [if_pos hlen] at hr
      cases hr
    · rw [if_neg hlen] at hr
      rw [mkNetworkSet_ok_inv hr]
      refine ⟨rfl, rfl, fun k hk hk2 => ?_⟩
      have hkz : k < (List.zipWith op A.ntwk_set B.ntwk_set).length := by
        rw [List.length_zipWith]
        omega
      rw [List.getElem?_eq_getElem hkz]
      simp
  · rw [operator_func_set, if_neg (fun hc => hc hlen.symm)]
    obtain ⟨a0, arest, hA⟩ := List.exists_cons_of_ne_nil hne
    have hBne : B.ntwk_set ≠ [] := by
      intro hB
      rw [hA, hB] at hlen
      simp at hlen
    obtain ⟨b0, brest, hB⟩ := List.exists_cons_of_ne_nil hBne
    rw [hA, hB, List.zipWith_cons_cons]
    have hmem : ∀ m ∈ op a0 b0 :: List.zipWith op arest brest,
        m.number_of_ports = (op a0 b0).number_of_ports ∧
        m.frequency = (op a0 b0).frequency := by
      intro m hm
      rcases List.mem_cons.mp hm with rfl | hm
      · exact ⟨rfl, rfl⟩
      · obtain ⟨a, ha, b, hb, rfl⟩ := mem_zipWith hm
        have ha' : a ∈ A.ntwk_set := by
          rw [hA]
          exact List.mem_cons_of_mem _ ha
        have ha0 : a0 ∈ A.ntwk_set := by
          rw [hA]
          exact List.mem_cons_self _ _
        have huab := hu a ha' a0 ha0
        rw [(hop a b).1, (hop a0 b0).1, (hop a b).2, (hop a0 b0).2]
        exact huab
    exact ⟨_, mkNetworkSet_ok_of_compat (fun m hm => (hmem m hm).1)
      (fun m hm => (hmem m hm).2)⟩

/-- Witness for C3 at concrete inputs: pairing two compatible two-member
sets succeeds elementwise, and sets of differing lengths fail with the
configuration error. -/
theorem claim_C3_witness :
    (∃ r, operator_func exOp exSetQ (.set exSetQ2) = .ok r)
    ∧ operator_func exOp exSetQ (.set ⟨[exNetB], none⟩) =
        .error .lengthValueError :=
  ⟨(claim_C3 exOp exSetQ exSetQ2).2.2 (fun a b => ⟨rfl, rfl⟩) exSetQ_uniform
      (by simp [exSetQ]) rfl,
   ((claim_C3 exOp exSetQ ⟨[exNetB], none⟩).1 (by decide)).1⟩

/-- Claim C4: each generated binary operator applied to a single
network-like operand applies every member against that fixed operand —
whenever it returns a set, the k-th element is `member_k OP other`, and
under the collaborator's structure-preservation contract it does return a
set — while any operand that is neither a NetworkSet nor a Network raises
the type error. -/
theorem claim_C4 {α : Type} (op : Network α → Network α → Network α)
    (self : NetworkSet α) :
    (operator_func op self .other = .error .typeError)
    ∧ (∀ w r, operator_func op self (.net w) = .ok r →
        r.name = none ∧ r.ntwk_set = self.ntwk_set.map (fun n => op n w) ∧
        ∀ k (hk : k < self.ntwk_set.length),
          r.ntwk_set[k]? = some (op self.ntwk_set[k] w))
    ∧ (∀ w, (∀ a b, (op a b).number_of_ports = a.number_of_ports ∧
                    (op a b).frequency = a.frequency) →
        self.uniform → self.ntwk_set ≠ [] →
        ∃ r, operator_func op self (.net w) = .ok r) := by
  refine ⟨rfl, fun w r hr => ?_, fun w hop hu hne => ?_⟩
  · rw [operator_func_net] at hr
    rw [mkNetworkSet_ok_inv hr]
    refine ⟨rfl, rfl, fun k hk => ?_⟩
    have hkm : k < (self.ntwk_set.map fun n => op n w).length := by
      rw [List.length_map]
      omega
    rw [List.getElem?_eq_getElem hkm]
    simp
  · rw [operator_func_net]
    obtain ⟨a0, arest, hA⟩ := List.exists_cons_of_ne_nil hne
    rw [hA, List.map_cons]
    have hmem : ∀ m ∈ op a0 w :: (arest.map fun n => op n w),
        m.number_of_ports = (op a0 w).number_of_ports ∧
        m.frequency = (op a0 w).frequency := by
      intro m hm
      rcases List.mem_cons.mp hm with rfl | hm
      · exact ⟨rfl, rfl⟩
      · obtain ⟨a, ha, rfl⟩ := List.mem_map.mp hm
        have ha' : a ∈ self.ntwk_set := by
          rw [hA]
          exact List.mem_cons_of_mem _ ha
        have ha0 : a0 ∈ self.ntwk_set := by
          rw [hA]
          exact List.mem_cons_self _ _
        have huab := hu a ha' a0 ha0
        rw [(hop a w).1, (hop a0 w).1, (hop a w).2, (hop a0 w).2]
        exact huab
    exact ⟨_, mkNetworkSet_ok_of_compat (fun m hm => (hmem m hm).1)
      (fun m hm => (hmem m hm).2)⟩

/-- Witness for C4 at concrete inputs: applying an operator of a
two-member set against one fixed network succeeds. -/
theorem claim_C4_witness :
    ∃ r, operator_func exOp exSetQ (.net exNetB) = .ok r :=
  (claim_C4 exOp exSetQ).2.2 exNetB (fun a b => ⟨rfl, rfl⟩) exSetQ_uniform
    (by simp [exSetQ])

/-- Counterexample to claim C7: on a valid set whose member method returns
a network for the first member but a non-network for the second, the call
does not return the plain list of per-member results (as the claim
requires when not every result is network-shaped) — it raises the
constructor's attribute error instead. -/
theorem claim_C7_counterexample :
    (¬ ∀ v ∈ exSetQ.ntwk_set.map exF, v.isNet = true)
    ∧ element_wise_method exF exSetQ = .error .attributeError
    ∧ element_wise_method exF exSetQ ≠ .ok (.list (exSetQ.ntwk_set.map exF)) := by
  refine ⟨?_, rfl, ?_⟩
  · intro hall
    have h := hall PyVal.other (by simp [exSetQ, exF, exNetA, exNetB])
    simp [PyVal.isNet] at h
  · intro hcontra
    rw [show element_wise_method exF exSetQ = .error .attributeError from rfl]
      at hcontra
    cases hcontra

/-- Claim C7 as amended: the call invokes the method on every member and
dispatches on the first result only — if the first per-member result is
not network-shaped the plain list of results is returned; if it is
network-shaped, the full result list is passed to the `NetworkSet`
constructor, whose value (a new set, or a raised construction error) is
the call's outcome. -/
theorem claim_C7_amended {α : Type} (f : Network α → PyVal α)
    (self : NetworkSet α) (v : PyVal α) (rest : List (PyVal α))
    (hmap : self.ntwk_set.map f = v :: rest) :
    (v.isNet = false → element_wise_method f self = .ok (.list (v :: rest)))
    ∧ (v.isNet = true →
        element_wise_method f self = (pyInit (v :: rest) none).map EWResult.set) := by
  have hred : element_wise_method f self =
      (if v.isNet then (pyInit (v :: rest) none).map EWResult.set
       else .ok (.list (v :: rest))) := by
    unfold element_wise_method
    rw [hmap]
  constructor
  · intro h
    rw [hred, h]
    simp
  · intro h
    rw [hred, h]
    simp

/-- Witness for the amended C7 at a concrete input: a member method
returning a non-network (as `write_touchstone` returns `None`) yields the
plain list of results. -/
theorem claim_C7_witness :
    element_wise_method exF0 exSetQ = .ok (.list [PyVal.other, PyVal.other]) :=
  (claim_C7_amended exF0 exSetQ PyVal.other [PyVal.other] rfl).1 rfl

/-- Claim C2: every generated reduction property `<func>_<attribute>`
equals the spec's description — stack the chosen attribute from every
member along a new leading axis, apply the reduction function along that
axis, write the reduced array into the `s` field of a copy of the first
member, and carry the set's name when one is set. -/
theorem claim_C2 (v : AttrViews ℝ) (f : RFunc) (a : Attr) (ns : NetworkSet ℝ) :
    genProp v f a ns = specReduction v f a ns := by
  cases hns : ns.ntwk_set with
  | nil =>
    unfold genProp func_on_networks specReduction
    rw [hns]
  | cons n0 rest =>
    have hnm : Option.or ns.name n0.name =
        (if ns.name.isSome then ns.name else n0.name) := by
      cases ns.name <;> rfl
    have hs : axis0 f.apply ((n0 :: rest).map (v.get a)) =
        (fun fi i j => f.apply ((List.range (n0 :: rest).length).map fun k =>
          ((n0 :: rest).map (v.get a)).getD k (fun _ _ _ => 0) fi i j)) := by
      funext fi i j
      unfold axis0
      congr 1
      have h1 : (List.range ((n0 :: rest).map (v.get a)).length).map
          (fun k => ((n0 :: rest).map (v.get a)).getD k (fun _ _ _ => (0:ℝ))) =
          (n0 :: rest).map (v.get a) := getD_range_map _ _
      rw [List.length_map] at h1
      conv_lhs => rw [← h1]
      rw [List.map_map]
      rfl
    have hL : genProp v f a ns =
        some { n0 with
               s := axis0 f.apply ((n0 :: rest).map (v.get a))
               name := Option.or ns.name n0.name } := by
      unfold genProp
      rw [hns, func_on_networks_cons]
    have hR : specReduction v f a ns =
        some { n0 with
               s := fun fi i j =>
                 f.apply ((List.range (n0 :: rest).length).map fun k =>
                   ((n0 :: rest).map (v.get a)).getD k (fun _ _ _ => 0) fi i j)
               name := if ns.name.isSome then ns.name else n0.name } := by
      unfold specReduction
      rw [hns]
    rw [hL, hR, hs, hnm]

/-- Claim C6: `uncertainty_ntwk_triplet` returns the triple
`(mean, mean − n·std, mean + n·std)` of network-shaped objects, where mean
and std are the set's generated reduction properties for the chosen
attribute, and the deviation count defaults to 3. -/
theorem claim_C6 (v : AttrViews ℝ) (ns : NetworkSet ℝ) (a : Attr) (nd : ℝ)
    (hne : ns.ntwk_set ≠ []) :
    (∃ m sd, genProp v .mean a ns = some m ∧ genProp v .std a ns = some sd ∧
      ∃ lo hi, uncertainty_ntwk_triplet v ns a nd = some (m, lo, hi) ∧
        (∀ fi i j, lo.s fi i j = m.s fi i j - nd * sd.s fi i j) ∧
        (∀ fi i j, hi.s fi i j = m.s fi i j + nd * sd.s fi i j))
    ∧ uncertainty_ntwk_triplet_default v ns a = uncertainty_ntwk_triplet v ns a 3 := by
  obtain ⟨n0, rest, hns⟩ := List.exists_cons_of_ne_nil hne
  have hme : genProp v .mean a ns =
      some { n0 with
             s := axis0 (RFunc.apply .mean) ((n0 :: rest).map (v.get a))
             name := Option.or ns.name n0.name } := by
    unfold genProp
    rw [hns, func_on_networks_cons]
  have hsd : genProp v .std a ns =
      some { n0 with
             s := axis0 (RFunc.apply .std) ((n0 :: rest).map (v.get a))
             name := Option.or ns.name n0.name } := by
    unfold genProp
    rw [hns, func_on_networks_cons]
  refine ⟨⟨_, _, hme, hsd, ?_⟩, rfl⟩
  unfold uncertainty_ntwk_triplet
  rw [hme, hsd]
  exact ⟨_, _, rfl, fun fi i j => rfl, fun fi i j => rfl⟩

/-- Witness for C6 at a concrete input. -/
theorem claim_C6_witness :
    dbExampleSet.ntwk_set ≠ [] ∧
    ∃ m sd, genProp trivViews .mean .s dbExampleSet = some m ∧
      genProp trivViews .std .s dbExampleSet = some sd ∧
      ∃ lo hi, uncertainty_ntwk_triplet trivViews dbExampleSet .s 2 = some (m, lo, hi) ∧
        (∀ fi i j, lo.s fi i j = m.s fi i j - 2 * sd.s fi i j) ∧
        (∀ fi i j, hi.s fi i j = m.s fi i j + 2 * sd.s fi i j) := by
  have hne : dbExampleSet.ntwk_set ≠ [] := by simp [dbExampleSet]
  exact ⟨hne, (claim_C6 trivViews dbExampleSet .s 2 hne).1⟩

/-- Claim C1: `mean_s_db` averages the magnitudes across members first and
converts the averaged magnitude to decibels afterwards, and on the
two-member ensemble with magnitudes 1 and 100 this differs from averaging
the per-member decibel-converted magnitudes. -/
theorem claim_C1 :
    (∀ (ns : NetworkSet ℝ) (n0 : Network ℝ) (rest : List (Network ℝ)),
      ns.ntwk_set = n0 :: rest →
      ∃ mg m, ns.mean_s_mag = some mg ∧ ns.mean_s_db = some m ∧
        (∀ fi i j, mg.s fi i j =
          npyMean (ns.ntwk_set.map fun w => |w.s fi i j|)) ∧
        (∀ fi i j, m.s fi i j = mag2db (mg.s fi i j)))
    ∧ (∃ m, dbExampleSet.mean_s_db = some m ∧
        m.s 0 0 0 ≠ npyMean (dbExampleSet.ntwk_set.map fun w => mag2db |w.s 0 0 0|)) := by
  constructor
  · intro ns n0 rest hns
    have hmg : ns.mean_s_mag =
        some { n0 with
               s := axis0 npyMean ((n0 :: rest).map s_mag_view)
               name := Option.or ns.name n0.name } := by
      unfold NetworkSet.mean_s_mag
      rw [hns, func_on_networks_cons]
    have hm : ns.mean_s_db =
        some { n0 with
               s := s_db_view { n0 with
                      s := axis0 npyMean ((n0 :: rest).map s_mag_view)
                      name := Option.or ns.name n0.name }
               name := Option.or ns.name n0.name } := by
      unfold NetworkSet.mean_s_db
      rw [hmg]
      rfl
    refine ⟨_, _, hmg, hm, ?_, ?_⟩
    · intro fi i j
      rw [hns]
      show npyMean (((n0 :: rest).map s_mag_view).map fun mm => mm fi i j) = _
      rw [List.map_map]
      rfl
    · intro fi i j
      show mag2db |axis0 npyMean ((n0 :: rest).map s_mag_view) fi i j| = _
      have hnn : 0 ≤ axis0 npyMean ((n0 :: rest).map s_mag_view) fi i j := by
        apply npyMean_nonneg
        intro x hx
        rw [List.map_map] at hx
        obtain ⟨w, hw, rfl⟩ := List.mem_map.mp hx
        exact abs_nonneg _
      rw [abs_of_nonneg hnn]
  · refine ⟨_, rfl, ?_⟩
    have habs1 : |(1:ℝ)| = 1 := abs_one
    have habs100 : |(100:ℝ)| = 100 := abs_of_nonneg (by norm_num)
    have hlogb100 : Real.logb 10 100 = 2 := by
      have h2 : (100:ℝ) = 10 ^ (2:ℕ) := by norm_num
      rw [h2, Real.logb_pow, Real.logb_self_eq_one (by norm_num)]
      norm_num
    have hgt : (1:ℝ) < Real.logb 10 (101/2) := by
      have h1 : Real.logb 10 10 < Real.logb 10 (101/2) :=
        Real.logb_lt_logb (by norm_num) (by norm_num) (by norm_num)
      rwa [Real.logb_self_eq_one (by norm_num)] at h1
    show mag2db |npyMean [|(1:ℝ)|, |(100:ℝ)|]| ≠
      npyMean (dbExampleSet.ntwk_set.map fun w => mag2db |w.s 0 0 0|)
    have hlist : dbExampleSet.ntwk_set.map (fun w => mag2db |w.s 0 0 0|) =
        [mag2db 1, mag2db 100] := by
      simp [dbExampleSet, netUnit, netHundred, habs1, habs100]
    rw [hlist, habs1, habs100]
    have hmean : npyMean [(1:ℝ), 100] = 101/2 := by
      simp [npyMean]
      norm_num
    rw [hmean, abs_of_nonneg (by norm_num : (0:ℝ) ≤ 101/2)]
    have hrhs : npyMean [mag2db 1, mag2db 100] = 20 := by
      simp [npyMean, mag2db, Real.logb_one, hlogb100]
    rw [hrhs]
    unfold mag2db
    intro hcontra
    nlinarith [hgt]

/-- Witness for C1 at the concrete two-member ensemble. -/
theorem claim_C1_witness :
    ∃ mg m, dbExampleSet.mean_s_mag = some mg ∧
      dbExampleSet.mean_s_db = some m ∧
      (∀ fi i j, mg.s fi i j =
        npyMean (dbExampleSet.ntwk_set.map fun w => |w.s fi i j|)) ∧
      (∀ fi i j, m.s fi i j = mag2db (mg.s fi i j)) :=
  claim_C1.1 dbExampleSet netUnit [netHundred] rfl

end Skrf
